import Mathlib

/-!
Shallow embedding of `bot.py`: a chat-based personal ledger with an admin
broadcast fan-out. Strings are modelled as `List Char`, amounts as exact
rationals (the source stores Python floats; rounding is outside this model),
and the chat transport as an explicit send-outcome function. Each definition
mirrors the source function of the same name.
-/

/-- Maximum transport payload size (`MAX_MSG_LEN = 4096`, bot.py line 13). -/
def MAX_MSG_LEN : Nat := 4096

/-- One row of the `transactions` table
(`transactions(amount, date, category, chat_id)`, bot.py line 48). -/
structure Txn where
  amount : ℚ
  date : List Char
  category : List Char
  chat_id : Int
deriving DecidableEq, Repr

/-- The database state: the `users` table (list of chat ids, in insertion
order) and the `transactions` table (rows in insertion order, which is the
order of the autoincrementing id). -/
structure DBState where
  users : List Int
  txns : List Txn
deriving DecidableEq, Repr

/-- A fresh database with empty `users` and `transactions` tables. -/
def emptyDB : DBState := ⟨[], []⟩

/-- `add_user` (bot.py lines 41-43): `INSERT OR IGNORE INTO users (chat_id)`.
Under the `UNIQUE` constraint on `users.chat_id` the insert is ignored when
the row is already present. -/
def add_user (s : DBState) (chat_id : Int) : DBState :=
  if chat_id ∈ s.users then s else { s with users := s.users ++ [chat_id] }

/-- The default `category` argument of `save_transaction` (bot.py line 45). -/
def defaultCategory : List Char := ['g', 'e', 'n', 'e', 'r', 'a', 'l']

/-- `save_transaction` (bot.py lines 45-49): appends one row to the
`transactions` table. The `date` (from `datetime.now()`) is passed in as a
parameter. -/
def save_transaction (s : DBState) (chat_id : Int) (amount : ℚ)
    (date category : List Char) : DBState :=
  { s with txns := s.txns ++ [⟨amount, date, category, chat_id⟩] }

/-- The rows of `transactions` owned by `chat_id`, in insertion order
(`SELECT * FROM transactions WHERE chat_id = ?`, bot.py line 95). -/
def txnsOf (s : DBState) (chat_id : Int) : List Txn :=
  s.txns.filter (fun t => t.chat_id = chat_id)

/-- SQL `SUM(amount)`: `NULL` (here `none`) when no row matches, otherwise
the sum of the matched amounts. -/
def sqlSum (l : List ℚ) : Option ℚ :=
  if l = [] then none else some l.sum

/-- Python `x or 0` applied to the fetched sum (bot.py line 54): `None`
becomes `0`, and a zero sum (falsy in Python) also becomes `0`. -/
def pyOr0 (x : Option ℚ) : ℚ :=
  match x with
  | none => 0
  | some q => if q = 0 then 0 else q

/-- `get_total` (bot.py lines 51-54):
`SELECT SUM(amount) FROM transactions WHERE chat_id = ?` followed by
`fetchone()[0] or 0`. -/
def get_total (s : DBState) (chat_id : Int) : ℚ :=
  pyOr0 (sqlSum ((txnsOf s chat_id).map (fun t => t.amount)))

/-- `reset_transactions` (bot.py lines 125-128):
`DELETE FROM transactions WHERE chat_id = ?`; the `users` table is not
touched. -/
def reset_transactions (s : DBState) (chat_id : Int) : DBState :=
  { s with txns := s.txns.filter (fun t => t.chat_id ≠ chat_id) }

/-- Result of running one ledger operation through the `Database` context
manager (bot.py lines 24-38). `__exit__` tries to `commit()`; a
`sqlite3.Error` there is caught and only logged (`logger.error`), so the
caller sees a normal return while the uncommitted writes are discarded when
the connection closes. -/
structure OpResult (α : Type) where
  state : DBState
  value : α
  surfacedError : Bool
  loggedError : Bool
deriving Repr

/-- The `with Database() as db:` block (bot.py lines 24-38) around a body
that transforms the state and produces a value. `commitFails` says whether
the commit in `__exit__` raises `sqlite3.Error`; in that case the error is
swallowed into the log and the writes are lost, and in no case is an error
surfaced to the caller. -/
def withDatabaseCommit {α : Type} (commitFails : Bool) (s : DBState)
    (body : DBState → DBState × α) : OpResult α :=
  let r := body s
  if commitFails then
    { state := s, value := r.2, surfacedError := false, loggedError := true }
  else
    { state := r.1, value := r.2, surfacedError := false, loggedError := false }

/-- `save_transaction` as observed by its caller, including the commit
behaviour of the `Database` context manager. -/
def save_transaction_op (commitFails : Bool) (s : DBState) (chat_id : Int)
    (amount : ℚ) (date : List Char) : OpResult Unit :=
  withDatabaseCommit commitFails s
    (fun st => (save_transaction st chat_id amount date defaultCategory, ()))

/-- Python whitespace, as recognised by `str.strip()` and `str.split()`. -/
def isWS (c : Char) : Bool :=
  c = ' ' || c = '\t' || c = '\n' || c = '\r' || c = '\x0b' || c = '\x0c'

/-- Python `str.strip()` (bot.py line 58): drop leading and trailing
whitespace. -/
def pyStrip (t : List Char) : List Char :=
  ((t.dropWhile isWS).reverse.dropWhile isWS).reverse

/-- An ASCII decimal digit, as matched by the regex class in bot.py
line 62. -/
def isAsciiDigit (c : Char) : Bool :=
  '0' ≤ c && c ≤ '9'

/-- The amount regex of bot.py line 62 (an optional sign, one or more
digits, optionally a dot followed by one or more digits, anchored at both
ends), as a decidable recogniser. -/
def isValidAmount (t : List Char) : Bool :=
  let t1 := match t with
    | c :: r => if c = '+' || c = '-' then r else t
    | [] => []
  let ds := t1.takeWhile isAsciiDigit
  let rest := t1.dropWhile isAsciiDigit
  ds ≠ [] &&
    (rest = [] ||
      match rest with
      | '.' :: r2 => r2 ≠ [] && r2.all isAsciiDigit
      | _ => false)

/-- The natural number denoted by a string of decimal digits. -/
def digitsToNat (ds : List Char) : Nat :=
  ds.foldl (fun a c => a * 10 + (c.toNat - Char.toNat '0')) 0

/-- The numeric value of a matched amount (`float(match.group())`, bot.py
line 64), as an exact rational; meaningful on inputs accepted by
`isValidAmount`. -/
def parseAmount (t : List Char) : ℚ :=
  let sign : ℚ := match t with
    | '-' :: _ => -1
    | _ => 1
  let t1 := match t with
    | c :: r => if c = '+' || c = '-' then r else t
    | [] => []
  let ds := t1.takeWhile isAsciiDigit
  let rest := t1.dropWhile isAsciiDigit
  let ip : ℚ := (digitsToNat ds : ℚ)
  match rest with
  | '.' :: r2 => sign * (ip + (digitsToNat r2 : ℚ) / (10 : ℚ) ^ r2.length)
  | _ => sign * ip

/-- The reply sent back by `handle_message` (bot.py lines 67 and 69), with
the two f-string payload values kept as data. -/
inductive Reply where
  | amountAdded (amount total : ℚ)
  | guidance
deriving DecidableEq, Repr

/-- `handle_message` (bot.py lines 57-69): strip the text, register the
sender, then either record the parsed amount and reply with the new total,
or reply with the guidance message. `today` stands for `datetime.now()`
formatted as a date. -/
def handle_message (s : DBState) (chat_id : Int) (text today : List Char) :
    DBState × Reply :=
  let t := pyStrip text
  let s1 := add_user s chat_id
  if isValidAmount t then
    let amount := parseAmount t
    let s2 := save_transaction s1 chat_id amount today defaultCategory
    (s2, Reply.amountAdded amount (get_total s2 chat_id))
  else
    (s1, Reply.guidance)

/-- Python `str.split()` with no argument, tokenising on runs of whitespace
with no empty tokens. This is how the chat transport derives the command
argument list `context.args` from the text after `/broadcast` (an external
collaborator of the core; specified at its boundary). `cur` accumulates the
current token in reverse. -/
def pySplitAux : List Char → List Char → List (List Char)
  | [], cur => if cur = [] then [] else [cur.reverse]
  | c :: rest, cur =>
    if isWS c then
      if cur = [] then pySplitAux rest [] else cur.reverse :: pySplitAux rest []
    else
      pySplitAux rest (c :: cur)

/-- Python `str.split()` on a whole body of text. -/
def pySplit (t : List Char) : List (List Char) :=
  pySplitAux t []

/-- Python `replace("\\n", "\n")` (bot.py line 77): rewrite every
two-character backslash-n escape token into a real line break, scanning left
to right. -/
def replaceEsc : List Char → List Char
  | [] => []
  | '\\' :: 'n' :: rest => '\n' :: replaceEsc rest
  | c :: rest => c :: replaceEsc rest

/-- The normalised broadcast message (bot.py line 77):
`" ".join(context.args).replace("\\n", "\n")`. -/
def normalizeMessage (args : List (List Char)) : List Char :=
  replaceEsc (List.intercalate [' '] args)

/-- The message that is actually chunked and delivered, as a function of the
original command body: the transport splits the body into `context.args`,
and bot.py line 77 joins and unescapes them. -/
def broadcastBodyNormalized (body : List Char) : List Char :=
  normalizeMessage (pySplit body)

/-- The slice start offsets `range(0, len(message), MAX_MSG_LEN)` of the
chunking comprehension (bot.py line 82). -/
def chunkStarts (len : Nat) : List Nat :=
  (List.range ((len + MAX_MSG_LEN - 1) / MAX_MSG_LEN)).map
    (fun k => k * MAX_MSG_LEN)

/-- The chunk list
`[message[i:i + MAX_MSG_LEN] for i in range(0, len(message), MAX_MSG_LEN)]`
(bot.py line 82). -/
def chunks (message : List Char) : List (List Char) :=
  (chunkStarts message.length).map
    (fun i => (message.drop i).take MAX_MSG_LEN)

/-- One observable event of a broadcast run: an outbound
`context.bot.send_message` for chunk index `idx` to `chat_id` with its
outcome, or the `sleep(RATE_LIMIT_DELAY)` rate-limit pause (bot.py lines
84-85). The chunk sent at index `idx` is `(chunks message).get idx`. -/
inductive Ev where
  | send (chat_id : Int) (idx : Nat) (ok : Bool)
  | sleep
deriving DecidableEq, Repr

/-- The events of one iteration of the inner loop body (bot.py lines 83-87):
the send, followed by the rate-limit sleep when the send succeeded; when the
send raises, the exception skips the sleep and is caught and logged. -/
def sendChunk (ok : Bool) (u : Int) (i : Nat) : List Ev :=
  if ok then [Ev.send u i true, Ev.sleep] else [Ev.send u i false]

/-- The event trace of the broadcast loops (bot.py lines 81-87): for each
user of the snapshot in order, each chunk index in order. `sendOk u i` is
the transport's outcome for the send of chunk `i` to user `u`. -/
def broadcastTrace (sendOk : Int → Nat → Bool) (users : List Int)
    (message : List Char) : List Ev :=
  users.flatMap (fun u =>
    (List.range (chunks message).length).flatMap (fun i =>
      sendChunk (sendOk u i) u i))

/-- The `(user, chunk index)` pairs recorded by `logger.error` in the
`except` branch (bot.py line 87): one entry per failed send, in order. -/
def errorLog (tr : List Ev) : List (Int × Nat) :=
  tr.filterMap (fun e =>
    match e with
    | Ev.send u i false => some (u, i)
    | _ => none)

/-- Whether an event is an outbound send. -/
def isSend : Ev → Bool
  | Ev.send _ _ _ => true
  | Ev.sleep => false

/-- No two consecutive events of the trace are both sends; since the only
other event is the rate-limit sleep, this says a pause separates every pair
of consecutive sends. -/
def noAdjacentSends (tr : List Ev) : Bool :=
  (tr.zip tr.tail).all (fun p => !(isSend p.1 && isSend p.2))

/-- Every successful send is immediately followed by the rate-limit sleep. -/
def delayAfterSuccess : List Ev → Bool
  | [] => true
  | Ev.send _ _ true :: rest =>
    match rest with
    | Ev.sleep :: _ => delayAfterSuccess rest
    | _ => false
  | _ :: rest => delayAfterSuccess rest

/-- What `broadcast_message` produces: its event trace and the reply text
sent back to the invoking admin. -/
structure BroadcastResult where
  trace : List Ev
  reply : String
deriving DecidableEq, Repr

/-- `broadcast_message` (bot.py lines 72-89): with no arguments it replies
with a prompt and sends nothing; otherwise it normalises the message, takes
the user snapshot, runs the send loops and replies with the fixed text
`"Broadcast sent."`. -/
def broadcast_message (sendOk : Int → Nat → Bool) (s : DBState)
    (args : List (List Char)) : BroadcastResult :=
  if args = [] then
    ⟨[], "Please provide a message to broadcast."⟩
  else
    ⟨broadcastTrace sendOk s.users (normalizeMessage args), "Broadcast sent."⟩

/-- The distinct recipients with at least one failed chunk in a trace. -/
def failedRecipients (tr : List Ev) : List Int :=
  ((errorLog tr).map Prod.fst).dedup

/-- A sequence of `save_transaction` calls for one `chat_id`, each entry an
`(amount, date)` pair with the default category. -/
def recordAll (s : DBState) (chat_id : Int)
    (entries : List (ℚ × List Char)) : DBState :=
  entries.foldl (fun st e => save_transaction st chat_id e.1 e.2 defaultCategory) s

/-- `n` repeated calls of `add_user` for the same `chat_id`. -/
def iterate_add_user (s : DBState) (chat_id : Int) : Nat → DBState
  | 0 => s
  | n + 1 => add_user (iterate_add_user s chat_id n) chat_id

/-- A transport on which every send fails. -/
def allFailTransport : Int → Nat → Bool := fun _ _ => false

/-- A transport on which every send succeeds. -/
def allOkTransport : Int → Nat → Bool := fun _ _ => true

/-- A transport on which every send to recipient `2` fails and all other
sends succeed. -/
def failUser2Transport : Int → Nat → Bool := fun u _ => !(u == 2)

/-- A transport on which every send to recipient `1` fails and all other
sends succeed. -/
def failUser1Transport : Int → Nat → Bool := fun u _ => !(u == 1)

/-- A small database with two registered users owning one transaction
each. -/
def sampleDB : DBState :=
  ⟨[1, 2], [⟨5, ['d'], defaultCategory, 1⟩, ⟨7, ['d'], defaultCategory, 2⟩]⟩

/-! ### Ledger lemmas -/

theorem pyOr0_sqlSum (l : List ℚ) : pyOr0 (sqlSum l) = l.sum := by
  by_cases h : l = []
  · subst h; rfl
  · simp only [sqlSum, if_neg h, pyOr0]
    by_cases h2 : l.sum = 0
    · simp [h2]
    · simp [h2]

theorem get_total_eq_sum (s : DBState) (chat_id : Int) :
    get_total s chat_id = ((txnsOf s chat_id).map (fun t => t.amount)).sum :=
  pyOr0_sqlSum _

theorem txnsOf_save_same (s : DBState) (c : Int) (a : ℚ) (d cat : List Char) :
    txnsOf (save_transaction s c a d cat) c = txnsOf s c ++ [⟨a, d, cat, c⟩] := by
  simp [txnsOf, save_transaction, List.filter_append]

theorem get_total_save (s : DBState) (c : Int) (a : ℚ) (d cat : List Char) :
    get_total (save_transaction s c a d cat) c = get_total s c + a := by
  rw [get_total_eq_sum, get_total_eq_sum, txnsOf_save_same]
  simp

theorem get_total_recordAll (entries : List (ℚ × List Char)) (s : DBState)
    (chat_id : Int) :
    get_total (recordAll s chat_id entries) chat_id
      = get_total s chat_id + (entries.map Prod.fst).sum := by
  induction entries generalizing s with
  | nil => simp [recordAll]
  | cons e es ih =>
    show get_total (recordAll (save_transaction s chat_id e.1 e.2 defaultCategory)
        chat_id es) chat_id = _
    rw [ih, get_total_save]
    simp only [List.map_cons, List.sum_cons]
    ring

theorem add_user_txns (s : DBState) (c : Int) : (add_user s c).txns = s.txns := by
  unfold add_user
  split <;> rfl

theorem get_total_add_user (s : DBState) (c c2 : Int) :
    get_total (add_user s c) c2 = get_total s c2 := by
  unfold get_total txnsOf
  rw [add_user_txns]

theorem mem_add_user (s : DBState) (c : Int) : c ∈ (add_user s c).users := by
  unfold add_user
  split
  next h => exact h
  next h => simp

theorem add_user_of_mem (s : DBState) (c : Int) (h : c ∈ s.users) :
    add_user s c = s := by
  unfold add_user
  rw [if_pos h]

theorem add_user_idem (s : DBState) (c : Int) :
    add_user (add_user s c) c = add_user s c :=
  add_user_of_mem _ _ (mem_add_user s c)

theorem count_add_user (s : DBState) (c : Int) (h : s.users.count c ≤ 1) :
    (add_user s c).users.count c = 1 := by
  unfold add_user
  split
  next hm =>
    have h1 : 0 < s.users.count c := List.count_pos_iff.mpr hm
    omega
  next hm =>
    have h0 : s.users.count c = 0 := List.count_eq_zero.mpr hm
    simp [List.count_append, h0]

theorem iterate_add_user_succ_eq (s : DBState) (c : Int) (n : Nat) :
    iterate_add_user s c (n + 1) = add_user s c := by
  induction n with
  | zero => rfl
  | succ m ih =>
    show add_user (iterate_add_user s c (m + 1)) c = _
    rw [ih, add_user_idem]

/-! ### Broadcast lemmas -/

theorem mem_broadcastTrace (sendOk : Int → Nat → Bool) (users : List Int)
    (msg : List Char) (u : Int) (i : Nat) (hu : u ∈ users)
    (hi : i < (chunks msg).length) :
    Ev.send u i (sendOk u i) ∈ broadcastTrace sendOk users msg := by
  unfold broadcastTrace
  rw [List.mem_flatMap]
  refine ⟨u, hu, ?_⟩
  rw [List.mem_flatMap]
  refine ⟨i, List.mem_range.mpr hi, ?_⟩
  cases h : sendOk u i <;> simp [sendChunk, h]

theorem mem_errorLog (tr : List Ev) (u : Int) (i : Nat)
    (h : Ev.send u i false ∈ tr) : (u, i) ∈ errorLog tr := by
  unfold errorLog
  rw [List.mem_filterMap]
  exact ⟨Ev.send u i false, h, rfl⟩

theorem chunkStarts_succ (n : Nat) (h : n ≠ 0) :
    chunkStarts n
      = 0 :: (chunkStarts (n - MAX_MSG_LEN)).map (fun i => i + MAX_MSG_LEN) := by
  have hq : (n + MAX_MSG_LEN - 1) / MAX_MSG_LEN
      = (n - MAX_MSG_LEN + MAX_MSG_LEN - 1) / MAX_MSG_LEN + 1 := by
    unfold MAX_MSG_LEN
    omega
  unfold chunkStarts
  rw [hq, List.range_succ_eq_map]
  simp only [List.map_cons, List.map_map, Nat.zero_mul]
  refine congrArg (fun l => 0 :: l) ?_
  apply List.map_congr_left
  intro k _
  simp [Nat.succ_mul]

theorem chunks_cons (s : List Char) (h : s ≠ []) :
    chunks s = s.take MAX_MSG_LEN :: chunks (s.drop MAX_MSG_LEN) := by
  have hn : s.length ≠ 0 := fun h0 => h (List.length_eq_zero.mp h0)
  unfold chunks
  rw [chunkStarts_succ s.length hn]
  simp only [List.map_cons, List.drop_zero, List.map_map, List.length_drop]
  refine congrArg (fun l => List.take MAX_MSG_LEN s :: l) ?_
  apply List.map_congr_left
  intro k _
  simp [Function.comp, List.drop_drop, Nat.add_comm]

theorem chunks_flatten (s : List Char) : (chunks s).flatten = s := by
  by_cases h : s = []
  · subst h; decide
  · have hn : s.length ≠ 0 := fun h0 => h (List.length_eq_zero.mp h0)
    have hlt : (s.drop MAX_MSG_LEN).length < s.length := by
      rw [List.length_drop]
      unfold MAX_MSG_LEN
      omega
    rw [chunks_cons s h, List.flatten_cons, chunks_flatten (s.drop MAX_MSG_LEN),
      List.take_append_drop]
termination_by s.length
decreasing_by exact hlt

theorem chunks_le (s : List Char) : ∀ c ∈ chunks s, c.length ≤ MAX_MSG_LEN := by
  intro c hc
  unfold chunks at hc
  rw [List.mem_map] at hc
  obtain ⟨i, _, rfl⟩ := hc
  simp [List.length_take]

theorem delayAfterSuccess_nil : delayAfterSuccess [] = true := rfl

theorem delayAfterSuccess_sleep (r : List Ev) :
    delayAfterSuccess (Ev.sleep :: r) = delayAfterSuccess r := rfl

theorem delayAfterSuccess_send_false (u : Int) (i : Nat) (r : List Ev) :
    delayAfterSuccess (Ev.send u i false :: r) = delayAfterSuccess r := rfl

theorem delayAfterSuccess_send_true_sleep (u : Int) (i : Nat) (r : List Ev) :
    delayAfterSuccess (Ev.send u i true :: Ev.sleep :: r)
      = delayAfterSuccess r := rfl

theorem delayAfterSuccess_sendChunk (ok : Bool) (u : Int) (i : Nat)
    (r : List Ev) :
    delayAfterSuccess (sendChunk ok u i ++ r) = delayAfterSuccess r := by
  cases ok
  · show delayAfterSuccess ([Ev.send u i false] ++ r) = _
    rw [List.cons_append, List.nil_append, delayAfterSuccess_send_false]
  · show delayAfterSuccess ([Ev.send u i true, Ev.sleep] ++ r) = _
    rw [List.cons_append, List.cons_append, List.nil_append,
      delayAfterSuccess_send_true_sleep]

theorem delayAfterSuccess_flatMap {α : Type} (l : List α) (f : α → List Ev)
    (hf : ∀ a (r : List Ev),
      delayAfterSuccess (f a ++ r) = delayAfterSuccess r) :
    ∀ r : List Ev, delayAfterSuccess (l.flatMap f ++ r) = delayAfterSuccess r := by
  induction l with
  | nil => intro r; simp
  | cons a l ih =>
    intro r
    rw [List.flatMap_cons, List.append_assoc, hf, ih]

/-! ### Tokenisation lemmas -/

theorem pySplitAux_token_props (t : List Char) :
    ∀ cur, (∀ c ∈ cur, isWS c = false) →
      ∀ tok ∈ pySplitAux t cur, tok ≠ [] ∧ ∀ c ∈ tok, isWS c = false := by
  induction t with
  | nil =>
    intro cur hcur tok htok
    unfold pySplitAux at htok
    split at htok
    · simp at htok
    next h =>
      rw [List.mem_singleton] at htok
      subst htok
      refine ⟨by simpa using h, ?_⟩
      intro c hc
      exact hcur c (by simpa using hc)
  | cons c rest ih =>
    intro cur hcur tok htok
    unfold pySplitAux at htok
    split at htok
    next hws =>
      split at htok
      · exact ih [] (by simp) tok htok
      next hcur0 =>
        rw [List.mem_cons] at htok
        rcases htok with h1 | h2
        · subst h1
          refine ⟨by simpa using hcur0, ?_⟩
          intro d hd
          exact hcur d (by simpa using hd)
        · exact ih [] (by simp) tok h2
    next hws =>
      refine ih (c :: cur) ?_ tok htok
      intro d hd
      rw [List.mem_cons] at hd
      rcases hd with h1 | h2
      · subst h1
        exact Bool.not_eq_true _ ▸ (by simpa using hws)
      · exact hcur d h2

theorem pySplitAux_consume_token (tok : List Char)
    (h : ∀ c ∈ tok, isWS c = false) :
    ∀ (t acc : List Char),
      pySplitAux (tok ++ t) acc = pySplitAux t (tok.reverse ++ acc) := by
  induction tok with
  | nil => intro t acc; simp
  | cons c tok ih =>
    intro t acc
    have hc : isWS c = false := h c (List.mem_cons_self c tok)
    show pySplitAux (c :: (tok ++ t)) acc = _
    simp only [pySplitAux]
    rw [if_neg (by simp [hc])]
    rw [ih (fun d hd => h d (List.mem_cons_of_mem c hd)) t (c :: acc)]
    simp

theorem pySplit_intercalate : ∀ toks : List (List Char),
    (∀ tok ∈ toks, tok ≠ [] ∧ ∀ c ∈ tok, isWS c = false) →
    pySplit (List.intercalate [' '] toks) = toks := by
  intro toks
  induction toks with
  | nil => intro _; rfl
  | cons a toks ih =>
    intro h
    obtain ⟨ha0, haws⟩ := h a (List.mem_cons_self a toks)
    cases toks with
    | nil =>
      have h1 : List.intercalate [' '] [a] = a := by simp [List.intercalate]
      rw [h1]
      show pySplitAux a [] = [a]
      have h2 := pySplitAux_consume_token a haws [] []
      rw [List.append_nil] at h2
      rw [h2]
      unfold pySplitAux
      rw [if_neg (by simp [ha0])]
      simp
    | cons b toks2 =>
      have h1 : List.intercalate [' '] (a :: b :: toks2)
          = a ++ ' ' :: List.intercalate [' '] (b :: toks2) := by
        simp [List.intercalate, List.intersperse]
      rw [h1]
      show pySplitAux (a ++ ' ' :: List.intercalate [' '] (b :: toks2)) [] = _
      rw [pySplitAux_consume_token a haws (' ' :: List.intercalate [' '] (b :: toks2)) []]
      simp only [pySplitAux]
      rw [if_pos (by decide)]
      rw [if_neg (by simp [ha0])]
      rw [List.append_nil, List.reverse_reverse]
      refine congrArg (fun l => a :: l) ?_
      exact ih (fun tok htok => h tok (List.mem_cons_of_mem a htok))

/-! ### Claims -/

/-- Claim C1 (confirmed): per-recipient isolation of the broadcast. For every
recipient snapshot, every message and every pattern of transport failures,
every recipient in the snapshot gets a send attempt for every chunk index —
with exactly the outcome the transport gives it, independent of any other
recipient's failures, so no single recipient's failure aborts the run — and
every failed send is recorded in the error log. -/
theorem c1_per_recipient_isolation (sendOk : Int → Nat → Bool)
    (users : List Int) (msg : List Char) (u : Int) (i : Nat)
    (hu : u ∈ users) (hi : i < (chunks msg).length) :
    Ev.send u i (sendOk u i) ∈ broadcastTrace sendOk users msg
    ∧ (sendOk u i = false →
        (u, i) ∈ errorLog (broadcastTrace sendOk users msg)) := by
  refine ⟨mem_broadcastTrace sendOk users msg u i hu hi, fun hf => ?_⟩
  have h := mem_broadcastTrace sendOk users msg u i hu hi
  rw [hf] at h
  exact mem_errorLog _ u i h

/-- Witness for C1 at a concrete run: three recipients, every send to
recipient 2 fails; recipient 2 is still attempted and its failure is
logged. -/
theorem c1_per_recipient_isolation_witness :
    ((2 : Int) ∈ ([1, 2, 3] : List Int) ∧ 0 < (chunks ['h', 'i']).length)
    ∧ (Ev.send 2 0 (failUser2Transport 2 0)
        ∈ broadcastTrace failUser2Transport [1, 2, 3] ['h', 'i']
      ∧ (failUser2Transport 2 0 = false →
          ((2 : Int), 0) ∈ errorLog
            (broadcastTrace failUser2Transport [1, 2, 3] ['h', 'i']))) :=
  ⟨⟨by decide, by decide⟩,
    c1_per_recipient_isolation failUser2Transport [1, 2, 3] ['h', 'i'] 2 0
      (by decide) (by decide)⟩

/-- Claim C2 (code bug): the source contradicts the claim. When the commit of
`save_transaction` fails, the `Database` context manager logs the error and
returns normally: no failure is ever surfaced to the invoking caller (for
any operation input), the write is lost, and the subsequent total reads `0`
as if nothing happened — exactly the silent downgrade the claim forbids. -/
theorem c2_storage_failure_swallowed :
    ((save_transaction_op true emptyDB 1 5 ['d']).surfacedError = false
      ∧ (save_transaction_op true emptyDB 1 5 ['d']).loggedError = true
      ∧ (save_transaction_op true emptyDB 1 5 ['d']).state = emptyDB
      ∧ get_total (save_transaction_op true emptyDB 1 5 ['d']).state 1 = 0)
    ∧ ∀ (cf : Bool) (s : DBState) (c : Int) (a : ℚ) (d : List Char),
        (save_transaction_op cf s c a d).surfacedError = false := by
  refine ⟨⟨rfl, rfl, rfl, rfl⟩, fun cf s c a d => ?_⟩
  cases cf <;> rfl

/-- Counterexample to claim C3: the code's report to the invoking admin is
the fixed string "Broadcast sent.". A run in which every send to the two
recipients failed produces a report identical to the all-success run, so the
report carries neither the failure count nor the failure list, and it still
claims success although no chunk was delivered. -/
theorem c3_aggregate_report_counterexample :
    (broadcast_message allFailTransport sampleDB [['h', 'i']]).reply
      = (broadcast_message allOkTransport sampleDB [['h', 'i']]).reply
    ∧ failedRecipients
        (broadcast_message allFailTransport sampleDB [['h', 'i']]).trace
      = [1, 2]
    ∧ failedRecipients
        (broadcast_message allOkTransport sampleDB [['h', 'i']]).trace = []
    ∧ (broadcast_message allFailTransport sampleDB [['h', 'i']]).reply
      = "Broadcast sent." := by
  decide

/-- Claim C3 (amended): whenever a message body is provided, the result
reported to the invoking admin is the fixed text "Broadcast sent." —
regardless of the recipients (zero included) and of any failures, which are
recorded only in the error log of the run's trace; the report itself carries
no delivered/failed counts and no failure list. -/
theorem c3_fixed_reply (sendOk : Int → Nat → Bool) (s : DBState)
    (args : List (List Char)) (h : args ≠ []) :
    (broadcast_message sendOk s args).reply = "Broadcast sent."
    ∧ (broadcast_message sendOk s args).trace
        = broadcastTrace sendOk s.users (normalizeMessage args) := by
  unfold broadcast_message
  rw [if_neg h]
  exact ⟨rfl, rfl⟩

/-- Witness for the amended C3: zero recipients, all-fail transport, the
report is still the fixed success text. -/
theorem c3_fixed_reply_witness :
    (([['h', 'i']] : List (List Char)) ≠ [])
    ∧ ((broadcast_message allFailTransport emptyDB [['h', 'i']]).reply
        = "Broadcast sent."
      ∧ (broadcast_message allFailTransport emptyDB [['h', 'i']]).trace
        = broadcastTrace allFailTransport emptyDB.users
            (normalizeMessage [['h', 'i']])) :=
  ⟨by decide, c3_fixed_reply allFailTransport emptyDB [['h', 'i']] (by decide)⟩

/-- Claim C4 (confirmed): chunking round-trip. For every argument list, the
normalised message (escape tokens replaced by line breaks) is split into an
ordered sequence of chunks each of length at most `MAX_MSG_LEN`, and the
in-order concatenation of the chunks is exactly the normalised message; the
quantification covers every normalised length, in particular 0, 1,
`MAX_MSG_LEN`, `MAX_MSG_LEN + 1` and all multiples. -/
theorem c4_chunking_roundtrip (args : List (List Char)) :
    (chunks (normalizeMessage args)).all
      (fun c => c.length ≤ MAX_MSG_LEN) = true
    ∧ (chunks (normalizeMessage args)).flatten = normalizeMessage args := by
  refine ⟨?_, chunks_flatten _⟩
  rw [List.all_eq_true]
  intro c hc
  simpa using chunks_le (normalizeMessage args) c hc

/-- Counterexample to claim C5: the rate-limit sleep sits inside the `try`
after the send, so a raised send skips it. In this run the failed send to
recipient 1 is immediately followed by the send to recipient 2 with no
intervening delay, refuting the claim that the minimum delay separates every
pair of consecutive sends including those that follow a failed send. -/
theorem c5_delay_counterexample :
    noAdjacentSends (broadcastTrace failUser1Transport [1, 2] ['h', 'i'])
      = false
    ∧ errorLog (broadcastTrace failUser1Transport [1, 2] ['h', 'i'])
      = [(1, 0)] := by
  decide

/-- Claim C5 (amended): the delay is enforced after every successful send —
in every broadcast run, across chunk and recipient boundaries, each
successful send is immediately followed by the rate-limit sleep — but a send
that follows a failed send may occur with no intervening delay, because the
exception skips the sleep. -/
theorem c5_delay_after_success (sendOk : Int → Nat → Bool) (users : List Int)
    (msg : List Char) :
    delayAfterSuccess (broadcastTrace sendOk users msg) = true := by
  have h := delayAfterSuccess_flatMap users
    (fun u => (List.range (chunks msg).length).flatMap
      (fun i => sendChunk (sendOk u i) u i))
    (fun u r => delayAfterSuccess_flatMap (List.range (chunks msg).length)
      (fun i => sendChunk (sendOk u i) u i)
      (fun i r2 => delayAfterSuccess_sendChunk (sendOk u i) u i r2) r)
    []
  rw [List.append_nil] at h
  exact h

/-- Claim C6 (confirmed): for every chat id and every sequence of recorded
transactions starting from a state holding no transactions for that user,
`get_total` returns exactly the sum of the recorded amounts, and it returns
the number 0 — it is a total function into ℚ, never a null — when the user
has no transactions. -/
theorem c6_total_is_sum (s : DBState) (chat_id : Int)
    (entries : List (ℚ × List Char)) (h : txnsOf s chat_id = []) :
    get_total (recordAll s chat_id entries) chat_id
      = (entries.map Prod.fst).sum
    ∧ get_total s chat_id = 0 := by
  have h0 : get_total s chat_id = 0 := by
    rw [get_total_eq_sum, h]
    rfl
  refine ⟨?_, h0⟩
  rw [get_total_recordAll, h0, zero_add]

/-- Witness for C6: recording +5 then -3 from an empty ledger yields the
exact sum. -/
theorem c6_total_is_sum_witness :
    txnsOf emptyDB 1 = []
    ∧ (get_total (recordAll emptyDB 1 [((5 : ℚ), ['d']), (-3, ['d'])]) 1
        = (([((5 : ℚ), ['d']), (-3, ['d'])] : List (ℚ × List Char)).map
            Prod.fst).sum
      ∧ get_total emptyDB 1 = 0) :=
  ⟨rfl, c6_total_is_sum emptyDB 1 [((5 : ℚ), ['d']), (-3, ['d'])] rfl⟩

/-- Claim C7 (confirmed): after `reset_transactions` for a chat id, that
user's total is 0 and their transaction list is empty, while every other
user's transaction list and total are unchanged, and the `users` table —
hence the reset user's own registration row — is untouched. -/
theorem c7_reset_frame (s : DBState) (chat_id other : Int)
    (h : other ≠ chat_id) :
    get_total (reset_transactions s chat_id) chat_id = 0
    ∧ txnsOf (reset_transactions s chat_id) chat_id = []
    ∧ txnsOf (reset_transactions s chat_id) other = txnsOf s other
    ∧ get_total (reset_transactions s chat_id) other = get_total s other
    ∧ (reset_transactions s chat_id).users = s.users := by
  have h2 : txnsOf (reset_transactions s chat_id) chat_id = [] := by
    simp only [txnsOf, reset_transactions, List.filter_filter]
    rw [List.filter_eq_nil_iff]
    intro t ht
    simp
  have h3 : txnsOf (reset_transactions s chat_id) other = txnsOf s other := by
    simp only [txnsOf, reset_transactions, List.filter_filter]
    apply List.filter_congr
    intro t ht
    by_cases hc : t.chat_id = other
    · simp [hc, h]
    · simp [hc]
  refine ⟨?_, h2, h3, ?_, rfl⟩
  · rw [get_total_eq_sum, h2]
    rfl
  · rw [get_total_eq_sum, get_total_eq_sum, h3]

/-- Witness for C7 on a two-user ledger: resetting user 1 zeroes user 1 and
leaves user 2 and the users table intact. -/
theorem c7_reset_frame_witness :
    ((2 : Int) ≠ (1 : Int))
    ∧ (get_total (reset_transactions sampleDB 1) 1 = 0
      ∧ txnsOf (reset_transactions sampleDB 1) 1 = []
      ∧ txnsOf (reset_transactions sampleDB 1) 2 = txnsOf sampleDB 2
      ∧ get_total (reset_transactions sampleDB 1) 2 = get_total sampleDB 2
      ∧ (reset_transactions sampleDB 1).users = sampleDB.users) :=
  ⟨by decide, c7_reset_frame sampleDB 1 2 (by decide)⟩

/-- Counterexample to claim C8: an unregistered sender sending the
non-numeric text "abc" receives the guidance reply and no transaction is
created, but the handler does change state — `add_user` runs before parsing
and registers the sender — so "changes no state at all" fails on the code. -/
theorem c8_state_change_counterexample :
    (handle_message emptyDB 7 ['a', 'b', 'c'] ['d']).1 ≠ emptyDB
    ∧ (handle_message emptyDB 7 ['a', 'b', 'c'] ['d']).1.users = [7]
    ∧ (handle_message emptyDB 7 ['a', 'b', 'c'] ['d']).1.txns = []
    ∧ (handle_message emptyDB 7 ['a', 'b', 'c'] ['d']).2 = Reply.guidance := by
  decide

/-- Claim C8 (amended): for every inbound text that does not match the
amount regex after stripping, the handler creates no transaction, leaves the
sender's total unchanged and replies with the guidance message; the only
state change is the registration of the sender (`add_user`), which runs
before parsing. -/
theorem c8_invalid_amount_no_txn (s : DBState) (chat_id : Int)
    (text today : List Char) (h : isValidAmount (pyStrip text) = false) :
    (handle_message s chat_id text today).1 = add_user s chat_id
    ∧ (handle_message s chat_id text today).1.txns = s.txns
    ∧ get_total (handle_message s chat_id text today).1 chat_id
        = get_total s chat_id
    ∧ (handle_message s chat_id text today).2 = Reply.guidance := by
  have h1 : handle_message s chat_id text today
      = (add_user s chat_id, Reply.guidance) := by
    simp [handle_message, h]
  rw [h1]
  exact ⟨rfl, add_user_txns s chat_id, get_total_add_user s chat_id chat_id,
    rfl⟩

/-- Witness for the amended C8 on a populated ledger. -/
theorem c8_invalid_amount_no_txn_witness :
    isValidAmount (pyStrip ['a', 'b', 'c']) = false
    ∧ ((handle_message sampleDB 7 ['a', 'b', 'c'] ['d']).1 = add_user sampleDB 7
      ∧ (handle_message sampleDB 7 ['a', 'b', 'c'] ['d']).1.txns = sampleDB.txns
      ∧ get_total (handle_message sampleDB 7 ['a', 'b', 'c'] ['d']).1 7
          = get_total sampleDB 7
      ∧ (handle_message sampleDB 7 ['a', 'b', 'c'] ['d']).2 = Reply.guidance) :=
  ⟨by decide,
    c8_invalid_amount_no_txn sampleDB 7 ['a', 'b', 'c'] ['d'] (by decide)⟩

/-- Claim C9 (confirmed): registration is idempotent. From any state whose
users table satisfies the UNIQUE constraint for the chat id (at most one
row), calling `add_user` N ≥ 1 times leaves exactly one row for that chat
id, and a repeated registration is a no-op (being a total function it raises
no error). -/
theorem c9_register_idempotent (s : DBState) (chat_id : Int) (n : Nat)
    (h1 : 1 ≤ n) (h2 : s.users.count chat_id ≤ 1) :
    (iterate_add_user s chat_id n).users.count chat_id = 1
    ∧ add_user (add_user s chat_id) chat_id = add_user s chat_id := by
  obtain ⟨m, rfl⟩ : ∃ m, n = m + 1 := ⟨n - 1, by omega⟩
  rw [iterate_add_user_succ_eq]
  exact ⟨count_add_user s chat_id h2, add_user_idem s chat_id⟩

/-- Witness for C9: three registrations of chat id 5 from an empty table
leave exactly one row. -/
theorem c9_register_idempotent_witness :
    ((1 : Nat) ≤ 3 ∧ emptyDB.users.count 5 ≤ 1)
    ∧ ((iterate_add_user emptyDB 5 3).users.count 5 = 1
      ∧ add_user (add_user emptyDB 5) 5 = add_user emptyDB 5) :=
  ⟨⟨by decide, by decide⟩,
    c9_register_idempotent emptyDB 5 3 (by decide) (by decide)⟩

/-- Claim C10 (confirmed): the delivered message equals the whitespace-split
argument tokens rejoined with single spaces and then unescaped; re-splitting
the rejoined tokens is the identity, so every run of spaces, tabs or real
newlines in the original body collapses to a single space, and a body with
such a run is not preserved byte-for-byte (concrete instance included). -/
theorem c10_whitespace_collapse :
    (∀ args : List (List Char),
      normalizeMessage args = replaceEsc (List.intercalate [' '] args))
    ∧ (∀ body : List Char,
      broadcastBodyNormalized body
        = replaceEsc (List.intercalate [' '] (pySplit body)))
    ∧ (∀ body : List Char,
      pySplit (List.intercalate [' '] (pySplit body)) = pySplit body)
    ∧ broadcastBodyNormalized ['a', ' ', ' ', '\t', 'b', '\n', '\n', 'c']
        = ['a', ' ', 'b', ' ', 'c']
    ∧ ['a', ' ', ' ', '\t', 'b', '\n', '\n', 'c'] ≠ ['a', ' ', 'b', ' ', 'c'] :=
  ⟨fun _ => rfl, fun _ => rfl,
    fun body => pySplit_intercalate (pySplit body)
      (pySplitAux_token_props body [] (by simp)),
    by decide, by decide⟩
